import Mathlib

/-!
# Verification of the comment-aggregation pipeline (`sentiment_sum`)

Shallow embedding of `analyzer/sentiment.py` and `analyzer/theme_analysis.py`.
Text is modelled as `List Char` (`Str`); Python floats are modelled as `ℚ`;
fallible external capabilities (TF-IDF vectorizer, summarizer, DistilBERT
classifier, OpenAI call) are modelled as function parameters returning
`Except Str _`; Python's `json.loads` is abstracted as a parameter returning
the optional `themes`/`explanation` fields of a parsed JSON object.
-/

/-- Python text, modelled as a list of characters. -/
abbrev Str := List Char

/-- Coerce a Lean string literal into the `Str` model. -/
def str (s : String) : Str := s.data

/-- The space character (code point 32). -/
def spaceChar : Char := Char.ofNat 32

/-- The newline character (code point 10). -/
def nlChar : Char := Char.ofNat 10

/-- Python `str.strip()`: drop leading and trailing whitespace. -/
def strip (s : Str) : Str :=
  ((s.dropWhile Char.isWhitespace).reverse.dropWhile Char.isWhitespace).reverse

/-- Python `"x" in s`: contiguous subsequence test. -/
def containsSeq (pat : Str) : Str → Bool
  | [] => decide (pat = [])
  | c :: rest => pat.isPrefixOf (c :: rest) || containsSeq pat rest

/-- Python `s.startswith(p)`. -/
def startsWith (p : Str) (s : Str) : Bool := p.isPrefixOf s

/-- Python `s.split(sep)` for a one-character separator (keeps empty pieces). -/
def splitCh (sep : Char) : Str → List Str
  | [] => [[]]
  | c :: rest =>
    let r := splitCh sep rest
    if c = sep then [] :: r
    else
      match r with
      | [] => [[c]]
      | h :: t => (c :: h) :: t

/-- Python `s.split("###")`: split on leftmost non-overlapping occurrences of
`###` (the section delimiter used by `theme_analysis.py`). -/
def splitSections : Str → List Str
  | [] => [[]]
  | '#' :: '#' :: '#' :: rest => [] :: splitSections rest
  | c :: rest =>
    match splitSections rest with
    | [] => [[c]]
    | h :: t => (c :: h) :: t

/-- Python `sep.join(parts)`. -/
def joinSep (sep : Str) : List Str → Str
  | [] => []
  | [x] => x
  | x :: y :: t => x ++ sep ++ joinSep sep (y :: t)

/-- Python `s.split()` (no argument): whitespace-delimited tokens, dropping
empty pieces.  Auxiliary: `w` is the reversed current word. -/
def tokensAux : Str → Str → List Str
  | [], w => if w = [] then [] else [w.reverse]
  | c :: rest, w =>
    if c.isWhitespace then
      if w = [] then tokensAux rest [] else w.reverse :: tokensAux rest []
    else tokensAux rest (c :: w)

/-- Python `s.split()` (no argument). -/
def tokens (s : Str) : List Str := tokensAux s []

/-- Remove duplicates keeping the first occurrence of each string.  Models
`list(set(comments))` in `preprocess_comments`; Python's `set` iteration
order is unspecified, so we fix first-occurrence order (downstream claims
depend only on membership). -/
def dedupAux : List Str → List Str → List Str
  | [], _ => []
  | c :: rest, seen =>
    if seen.elem c then dedupAux rest seen
    else c :: dedupAux rest (c :: seen)

/-- Embeds `list(set(l))`, modelled with first-occurrence order. -/
def dedup (l : List Str) : List Str := dedupAux l []

/-! ## Spam heuristics (`preprocess_comments`, sentiment.py lines 26-37)

The four regexes `^.{0,3}$`, `(.)\1{4,}`, `[A-Z]{10,}`, `[!]{3,}` are applied
with `re.search`. -/

/-- Embeds `re.search(r'^.{0,3}$', s)`: `.` does not match newline and `$` also
matches just before a final newline, so the pattern matches iff the string
(minus one trailing newline, if present) has no newline and length `≤ 3`. -/
def shortMatch (s : Str) : Bool :=
  let t := if s.getLast? = some nlChar then s.dropLast else s
  decide (t.length ≤ 3) && !(t.elem nlChar)

/-- Embeds `re.search(r'(.)\1{4,}', s)`: five consecutive equal characters, the first
matched by `.` (hence not a newline). -/
def rep5 : Str → Bool
  | [] => false
  | c :: rest =>
    (decide (c ≠ nlChar) && decide (4 ≤ rest.length) && (rest.take 4).all (· = c))
      || rep5 rest

/-- A run of `n` consecutive characters satisfying `p` somewhere in the
string (models `re.search` of `[A-Z]{10,}` and `[!]{3,}`). -/
def hasRun (p : Char → Bool) (n : ℕ) : Str → Bool
  | [] => false
  | c :: rest =>
    (decide (n ≤ rest.length + 1) && ((c :: rest).take n).all p) || hasRun p n rest

/-- ASCII uppercase (the regex class `[A-Z]`). -/
def isUpperAZ (c : Char) : Bool := decide ('A' ≤ c) && decide (c ≤ 'Z')

/-- The spam predicate of `preprocess_comments`: a comment is dropped when any
of the four patterns matches. -/
def isSpam (c : Str) : Bool :=
  shortMatch c || rep5 c || hasRun isUpperAZ 10 c || hasRun (· = '!') 3 c

/-! ## Similarity grouping (`preprocess_comments`, sentiment.py lines 39-69) -/

/-- Python `max(group, key=len)` over `seed :: rest`: the first element of
maximal length (`max` keeps the incumbent on ties). -/
def maxByLen (x : Str) (rest : List Str) : Str :=
  rest.foldl (fun a b => if a.length < b.length then b else a) x

/-- Greedy seed-anchored clustering over the index-tagged comment list:
for each not-yet-absorbed comment open a cluster, absorb every later
not-yet-absorbed comment whose similarity to the seed exceeds `0.7`, and
emit the longest member as representative.  `fuel` bounds the recursion
(instantiated with the list length, which only ever shrinks). -/
def clusterGo (sim : ℕ → ℕ → ℚ) : ℕ → List (ℕ × Str) → List Str
  | 0, _ => []
  | _, [] => []
  | fuel + 1, (i, s) :: rest =>
    let similar := rest.filter (fun p => decide (7/10 < sim i p.1))
    let remaining := rest.filter (fun p => !decide (7/10 < sim i p.1))
    maxByLen s (similar.map Prod.snd) :: clusterGo sim fuel remaining

/-- Embeds `preprocess_comments` (sentiment.py lines 15-69).  The TF-IDF
vectorization step is an external capability that may fail (e.g. an empty
vocabulary when every comment is only stopwords); the source has no handler
around it, so a failure propagates as the `Except` error. -/
def preprocessComments (tfidf : List Str → Except Str (ℕ → ℕ → ℚ))
    (comments : List Str) : Except Str (List Str) :=
  if comments = [] then .ok []
  else
    let stripped := (comments.map strip).filter (· ≠ [])
    let deduped := dedup stripped
    let filtered := deduped.filter (fun c => !isSpam c)
    if 1 < filtered.length then
      (tfidf filtered).map (fun sim => clusterGo sim filtered.length filtered.enum)
    else .ok filtered

/-! ## Chunker (`chunk_comments`, sentiment.py lines 71-90) -/

/-- The chunking loop, returning the comment groups before joining.
`cur` is the current chunk's comments, `curLen` its accumulated token count. -/
def chunkGroups (size : ℕ) : List Str → List Str → ℕ → List (List Str)
  | [], cur, _ => if cur = [] then [] else [cur]
  | c :: rest, cur, curLen =>
    if size < curLen + (tokens c).length ∧ cur ≠ [] then
      cur :: chunkGroups size rest [c] (tokens c).length
    else
      chunkGroups size rest (cur ++ [c]) (curLen + (tokens c).length)

/-- Embeds `chunk_comments(comments, chunk_size=30)`. -/
def chunkComments (comments : List Str) (size : ℕ) : List Str :=
  (chunkGroups size comments [] 0).map (joinSep [spaceChar])

/-- Total whitespace-token count of a group of comments (the quantity the
chunking loop accumulates in `current_length`). -/
def sumTok (g : List Str) : ℕ := (g.map fun c => (tokens c).length).sum

/-! ## Summarization (`generate_summary`, `aggregate_summaries`) -/

/-- Embeds `generate_summary` (sentiment.py lines 92-120): compute length bounds from
the word count and invoke the summarization capability; on failure substitute
the sentinel string. -/
def generateSummary (summarize : Str → ℕ → ℕ → Except Str Str) (text : Str) : Str :=
  let n := (tokens text).length
  let maxL := if n < 50 then min n 20 else if n < 200 then min (n / 2) 100 else min (n / 3) 150
  let minL := if n < 50 then min (n / 2) 10 else if n < 200 then min (n / 4) 30 else min (n / 6) 50
  match summarize text maxL minL with
  | .ok s => s
  | .error _ => str "Summary generation failed"

/-- Embeds `aggregate_summaries` (sentiment.py lines 122-154): join the per-chunk
summaries, summarize once more, split into bullet points; if the final call
fails, return the unreduced summaries. -/
def aggregateSummaries (summarize : Str → ℕ → ℕ → Except Str Str)
    (summaries : List Str) : List Str :=
  if summaries = [] then []
  else
    let combined := joinSep [spaceChar] summaries
    let n := (tokens combined).length
    match summarize combined (min (n / 2) 150) (min (n / 4) 50) with
    | .ok final =>
      (((splitCh '.' final).map strip).filter (fun p => p ≠ [] ∧ 10 < p.length)).take 5
    | .error _ => summaries

/-! ## Rounding

Python's `round(x, 2)` rounds half to even; modelled over `ℚ`. -/

/-- Round half to even to an integer. -/
def rhe (q : ℚ) : ℤ :=
  if q - (⌊q⌋ : ℚ) < 1/2 then ⌊q⌋
  else if 1/2 < q - (⌊q⌋ : ℚ) then ⌊q⌋ + 1
  else if ⌊q⌋ % 2 = 0 then ⌊q⌋ else ⌊q⌋ + 1

/-- Embeds `round(q, 2)`. -/
def round2 (q : ℚ) : ℚ := (rhe (q * 100) : ℚ) / 100

/-! ## Sentiment scoring (`analyze_sentiment` per-comment loop, lines 186-227) -/

/-- One per-comment `DetailedSentiment` record. -/
structure DetailedSentiment where
  text : Str
  vaderScore : ℚ
  distilbertLabel : Str
  distilbertScore : ℚ
deriving DecidableEq, Repr

/-- The VADER three-way classification (lines 201-206): positive when the
compound score is `≥ 0.05`, negative when `≤ -0.05`, neutral otherwise. -/
inductive SClass
  | pos
  | neu
  | neg
deriving DecidableEq, Repr

/-- Embeds `if vs >= 0.05 / elif vs <= -0.05 / else` (sentiment.py lines 201-206). -/
def vaderClass (v : ℚ) : SClass :=
  if 5/100 ≤ v then .pos else if v ≤ -(5/100) then .neg else .neu

/-- Accumulated state of the scoring loop. -/
structure Tally where
  pos : ℕ
  neu : ℕ
  neg : ℕ
  posLabel : ℕ
  negLabel : ℕ
  sumVader : ℚ
  sumDistil : ℚ
  valid : ℕ
  detailed : List DetailedSentiment

/-- The scoring loop (lines 195-227): every non-blank comment enters the
VADER tally; the DistilBERT capability may fail, in which case (or when it
returns a label other than `POSITIVE`/`NEGATIVE`, a `KeyError` in the source)
the comment is skipped for label counts, detailed records and averages. -/
def sentimentTally (vader : Str → ℚ) (distilbert : Str → Except Str (Str × ℚ)) :
    List Str → Tally
  | [] => ⟨0, 0, 0, 0, 0, 0, 0, 0, []⟩
  | c :: rest =>
    let t := sentimentTally vader distilbert rest
    if strip c = [] then t
    else
      let v := vader c
      let t1 : Tally :=
        match vaderClass v with
        | .pos => { t with pos := t.pos + 1 }
        | .neg => { t with neg := t.neg + 1 }
        | .neu => { t with neu := t.neu + 1 }
      match distilbert c with
      | .error _ => t1
      | .ok (label, score) =>
        if label = str "POSITIVE" then
          { t1 with posLabel := t1.posLabel + 1,
                    detailed := ⟨c, v, label, score⟩ :: t1.detailed,
                    sumVader := t1.sumVader + v,
                    sumDistil := t1.sumDistil + score,
                    valid := t1.valid + 1 }
        else if label = str "NEGATIVE" then
          { t1 with negLabel := t1.negLabel + 1,
                    detailed := ⟨c, v, label, score⟩ :: t1.detailed,
                    sumVader := t1.sumVader + v,
                    sumDistil := t1.sumDistil + score,
                    valid := t1.valid + 1 }
        else t1

/-- Embeds `total = sum(vader_scores.values()); if total == 0: total = 1`
(sentiment.py lines 229-230). -/
def totalOf (t : Tally) : ℕ :=
  if t.pos + t.neu + t.neg = 0 then 1 else t.pos + t.neu + t.neg

/-- Embeds `final_positive = vader_positive * 0.3 + distilbert_positive * 0.7`
(sentiment.py lines 233-237). -/
def finalPositive (t : Tally) : ℚ :=
  (t.pos : ℚ) / (totalOf t : ℚ) * 100 * (3/10)
    + (t.posLabel : ℚ) / (totalOf t : ℚ) * 100 * (7/10)

/-! ## Theme report parsing (`theme_analysis.py`) -/

/-- The rounded statistics dict passed to `generate_theme_analysis`. -/
structure SentimentData where
  positive : ℚ
  neutral : ℚ
  negative : ℚ
  avgVaderScore : ℚ
  avgDistilbertScore : ℚ
deriving DecidableEq, Repr

/-- The sentiment groups built by `_group_comments_by_sentiment`. -/
structure SentimentGroups where
  positive : List Str
  negative : List Str
  neutral : List Str
deriving DecidableEq, Repr

/-- Embeds `_group_comments_by_sentiment` (theme_analysis.py lines 18-27): strict
`> 0.05` / `< -0.05` polarity thresholds with label agreement for
positive/negative; inclusive `-0.05 ≤ v ≤ 0.05` band for neutral. -/
def groupCommentsBySentiment (ds : List DetailedSentiment) : SentimentGroups :=
  { positive := (ds.filter fun i =>
      decide (5/100 < i.vaderScore) && decide (i.distilbertLabel = str "POSITIVE")).map (·.text)
    negative := (ds.filter fun i =>
      decide (i.vaderScore < -(5/100)) && decide (i.distilbertLabel = str "NEGATIVE")).map (·.text)
    neutral := (ds.filter fun i =>
      decide (-(5/100) ≤ i.vaderScore) && decide (i.vaderScore ≤ 5/100)).map (·.text) }

/-- Does the string mention any of the explanation keywords
(`_extract_explanation_from_content`)? -/
def keywordIn (s : Str) : Bool :=
  containsSeq (str "Explanation") s || containsSeq (str "Classification") s
    || containsSeq (str "Sentiment Analysis") s

/-- The line loop of `_extract_themes_from_content` (lines 37-51), with the
`in_themes_section` flag; a `break` is a return of `[]` (nothing further is
collected). -/
def themesGo : List Str → Bool → List Str
  | [], _ => []
  | l :: rest, inT =>
    let line := strip l
    if containsSeq (str "Summary of Main Themes") line
        || containsSeq (str "Main Themes") line then
      themesGo rest true
    else if inT ∧ (containsSeq (str "Explanation") line
        || containsSeq (str "Classification") line) then []
    else if inT then
      let l2 := line.filter (· ≠ '*')
      if startsWith (str "1.") l2 || startsWith (str "2.") l2 || startsWith (str "3.") l2
          || startsWith (str "4.") l2 || startsWith (str "5.") l2 then
        strip (l2.drop 3) :: themesGo rest inT
      else if l2 ≠ [] ∧ ¬(startsWith (str "###") l2 ∨ startsWith (str "---") l2) then
        l2 :: themesGo rest inT
      else themesGo rest inT
    else themesGo rest inT

/-- Embeds `_extract_themes_from_content` (theme_analysis.py lines 29-57). -/
def extractThemes (content : Str) : List Str :=
  themesGo (splitCh nlChar content) false

/-- The per-section line loop of `_extract_explanation_from_content`
(lines 69-86), with the `in_explanation` flag. -/
def collectExpl : List Str → Bool → List Str
  | [], _ => []
  | l :: rest, inE =>
    let line := strip l
    if keywordIn line then collectExpl rest true
    else if startsWith (str "###") line || startsWith (str "---") line then []
    else if inE ∧ line ≠ [] then
      let c := strip (line.filter (· ≠ '*'))
      if c ≠ [] ∧ ¬(startsWith (str "###") c ∨ startsWith (str "---") c
          ∨ startsWith (str "##") c) then
        c :: collectExpl rest inE
      else collectExpl rest inE
    else collectExpl rest inE

/-- Explanation extraction from one `###`-delimited section (lines 66-89):
only sections that mention a keyword are considered, and only a non-empty
collection is returned. -/
def sectionExpl (sec : Str) : Option Str :=
  if keywordIn sec then
    let ls := collectExpl (splitCh nlChar sec) false
    if ls = [] then none else some (joinSep [spaceChar] ls)
  else none

/-- First section (in order) that yields an explanation. -/
def sectionsExpl : List Str → Option Str
  | [] => none
  | s :: rest =>
    match sectionExpl s with
    | some e => some e
    | none => sectionsExpl rest

/-- The fallback backward scan of `_extract_explanation_from_content`
(lines 92-105), iterating over the reversed line list: finding a keyword line
sets `found_explanation` and immediately breaks (returning the accumulator),
and a line is prepended only when `found_explanation` is already true. -/
def tailScanGo : List Str → Bool → List Str → List Str
  | [], _, acc => acc
  | l :: rest, found, acc =>
    if keywordIn (strip l) then acc
    else if found ∧ strip l ≠ [] then tailScanGo rest found (strip l :: acc)
    else tailScanGo rest found acc

/-- Embeds `_extract_explanation_from_content` (theme_analysis.py lines 59-110). -/
def extractExplanation (content : Str) : Str :=
  match sectionsExpl (splitSections content) with
  | some e => e
  | none =>
    let fb := tailScanGo (splitCh nlChar content).reverse false []
    if fb = [] then str "No detailed explanation available"
    else joinSep [spaceChar] fb

/-- The `id,"text"` listing sent to the text-generation capability
(theme_analysis.py lines 192 and 209). -/
def commentsListing (comments : List Str) : Str :=
  str "id,text" ++ [nlChar]
    ++ joinSep [nlChar] (comments.enum.map fun p =>
        (toString (p.1 + 1)).data ++ [',', Char.ofNat 34] ++ p.2 ++ [Char.ofNat 34])

/-- The `{themes, explanation}` report. -/
structure ThemeAnalysis where
  themes : List Str
  explanation : Str
deriving DecidableEq, Repr

/-- Embeds `generate_theme_analysis` (theme_analysis.py lines 153-258).
`jsonLoads` abstracts `json.loads` restricted to the shapes the result can
hold: `some (themes?, explanation?)` models a reply parsing as a JSON object
with those optional keys, `none` models a decode error or a non-object value
(both of which send the source to text parsing).  `llm` is the OpenAI call;
its failure is caught by the enclosing `try` and converted to the sentinel
report, never propagated. -/
def generateThemeAnalysis
    (jsonLoads : Str → Option (Option (List Str) × Option Str))
    (llm : Str → Except Str Str)
    (comments : List Str) (_sentimentData : SentimentData)
    (_detailed : List DetailedSentiment) : ThemeAnalysis :=
  match llm (commentsListing comments) with
  | .error e =>
    ⟨[str "Error generating themes"],
     str "Unable to generate theme analysis at this time. Error: " ++ e⟩
  | .ok content =>
    match jsonLoads content with
    | some (t, e) =>
      ⟨t.getD [str "No specific themes identified"],
       e.getD (str "No detailed explanation available")⟩
    | none =>
      let themes := extractThemes content
      let explanation := extractExplanation content
      ⟨if themes = [] then [str "No specific themes identified"] else themes,
       if explanation = [] then str "No detailed explanation available" else explanation⟩

/-! ## Top-level `analyze_sentiment` (sentiment.py lines 156-269) -/

/-- The final result record. -/
structure AnalysisResult where
  positive : ℚ
  neutral : ℚ
  negative : ℚ
  summary : List Str
  detailedSentiment : List DetailedSentiment
  avgVaderScore : ℚ
  avgDistilbertScore : ℚ
  themeAnalysis : ThemeAnalysis
deriving DecidableEq, Repr

/-- The external capabilities consumed by the pipeline. -/
structure Caps where
  tfidf : List Str → Except Str (ℕ → ℕ → ℚ)
  summarize : Str → ℕ → ℕ → Except Str Str
  vader : Str → ℚ
  distilbert : Str → Except Str (Str × ℚ)
  jsonLoads : Str → Option (Option (List Str) × Option Str)
  llm : Str → Except Str Str

/-- The early return for `if not comments` (sentiment.py lines 158-171);
note `themes` is the empty list there. -/
def emptyAnalysis : AnalysisResult :=
  { positive := 0, neutral := 0, negative := 0, summary := [],
    detailedSentiment := [], avgVaderScore := 0, avgDistilbertScore := 0,
    themeAnalysis := ⟨[], str "No comments to analyze."⟩ }

/-- The body of `analyze_sentiment` after preprocessing (lines 176-269). -/
def analyzeFrom (caps : Caps) (processed : List Str) : AnalysisResult :=
  let chunks := chunkComments processed 30
  let chunkSummaries := chunks.map (generateSummary caps.summarize)
  let finalSummary := aggregateSummaries caps.summarize chunkSummaries
  let t := sentimentTally caps.vader caps.distilbert processed
  let fp := finalPositive t
  let neuPct := (t.neu : ℚ) / (totalOf t : ℚ) * 100
  let avgV := if 0 < t.valid then t.sumVader / (t.valid : ℚ) else 0
  let avgD := if 0 < t.valid then t.sumDistil / (t.valid : ℚ) else 0
  let sd : SentimentData :=
    ⟨round2 fp, round2 neuPct, round2 (100 - fp), round2 avgV, round2 avgD⟩
  let theme := generateThemeAnalysis caps.jsonLoads caps.llm processed sd t.detailed
  { positive := round2 fp, neutral := round2 neuPct, negative := round2 (100 - fp),
    summary := finalSummary, detailedSentiment := t.detailed,
    avgVaderScore := round2 avgV, avgDistilbertScore := round2 avgD,
    themeAnalysis := theme }

/-- Embeds `analyze_sentiment` (sentiment.py lines 156-269).  The source has no
handler around `preprocess_comments`, so a vectorization failure propagates
out of `analyze_sentiment` as well. -/
def analyzeSentiment (caps : Caps) (comments : List Str) : Except Str AnalysisResult :=
  if comments = [] then .ok emptyAnalysis
  else (preprocessComments caps.tfidf comments).map (analyzeFrom caps)

/-! ## Concrete capability stubs used for witnesses and counterexamples -/

/-- Deterministic stub capabilities: no clustering, failing summarizer and
classifier and LLM, neutral polarity. -/
def stubCaps : Caps :=
  { tfidf := fun _ => .ok (fun _ _ => 0)
    summarize := fun _ _ _ => .error (str "summarizer offline")
    vader := fun _ => 0
    distilbert := fun _ => .error (str "classifier offline")
    jsonLoads := fun _ => none
    llm := fun _ => .error (str "api offline") }

/-- Stub whose vectorizer fails, as sklearn's `TfidfVectorizer` does when the
vocabulary is empty (every comment consists solely of stopwords). -/
def emptyVocabCaps : Caps :=
  { stubCaps with tfidf := fun _ => .error (str "empty vocabulary") }

/-- Stub giving one positive, one negative and one neutral polarity, with the
label capability always reporting `POSITIVE`. -/
def blendCaps : Caps :=
  { stubCaps with
    vader := fun s => if s = str "good" then 1/2 else if s = str "badly" then -(1/2) else 0
    distilbert := fun _ => .ok (str "POSITIVE", 1) }

/-- Modelled from the spec (the fallback path asserted by the specification
for `_extract_explanation_from_content`): scan the reversed line list until a
line mentioning a keyword is found and return the lines above it in original
order. -/
def specScanAbove : List Str → Option (List Str)
  | [] => none
  | l :: rest => if keywordIn (strip l) then some rest.reverse else specScanAbove rest

/-- Modelled from the spec: the fallback explanation the claim asserts —
the lines above the last keyword-mentioning line, joined in original order
(`none` when no line mentions a keyword). -/
def claimFallback (content : Str) : Option Str :=
  (specScanAbove (splitCh nlChar content).reverse).map (joinSep [spaceChar])

/-! ## Arithmetic helper lemmas about rounding -/

theorem rhe_intCast (z : ℤ) : rhe ((z : ℤ) : ℚ) = z := by
  unfold rhe
  rw [Int.floor_intCast]
  norm_num

theorem rhe_add_rhe_compl (x : ℚ) (n : ℤ) (hn : n % 2 = 0) :
    rhe x + rhe ((n : ℚ) - x) = n := by
  have hfl : ((⌊x⌋ : ℤ) : ℚ) ≤ x := Int.floor_le x
  have hfu : x < (⌊x⌋ : ℚ) + 1 := Int.lt_floor_add_one x
  by_cases hint : x = ((⌊x⌋ : ℤ) : ℚ)
  · have h1 : rhe x = ⌊x⌋ := by
      conv_lhs => rw [hint]
      exact rhe_intCast _
    have h2 : (n : ℚ) - x = ((n - ⌊x⌋ : ℤ) : ℚ) := by
      rw [hint]; push_cast [Int.floor_intCast]; ring
    rw [h1, h2, rhe_intCast]
    omega
  · have hr0 : (0 : ℚ) < x - (⌊x⌋ : ℚ) := by
      rcases lt_or_eq_of_le hfl with h | h
      · linarith
      · exact absurd h.symm hint
    have hf2 : ⌊(n : ℚ) - x⌋ = n - ⌊x⌋ - 1 := by
      rw [Int.floor_eq_iff]
      constructor
      · push_cast; linarith
      · push_cast; linarith
    unfold rhe
    rw [hf2]
    have hfr : (n : ℚ) - x - ((n - ⌊x⌋ - 1 : ℤ) : ℚ) = 1 - (x - (⌊x⌋ : ℚ)) := by
      push_cast; ring
    rw [hfr]
    split_ifs <;> first | omega | linarith

/-- Rounding to two decimals commutes with the complement to 100: with
round-half-to-even (Python's `round`) the two rounded halves always sum back
to 100 exactly. -/
theorem round2_compl (q : ℚ) : round2 q + round2 (100 - q) = 100 := by
  have h := rhe_add_rhe_compl (q * 100) 10000 (by decide)
  have e : (100 - q) * 100 = ((10000 : ℤ) : ℚ) - q * 100 := by push_cast; ring
  unfold round2
  rw [e]
  calc (rhe (q * 100) : ℚ) / 100 + (rhe (((10000 : ℤ) : ℚ) - q * 100) : ℚ) / 100
      = ((rhe (q * 100) + rhe (((10000 : ℤ) : ℚ) - q * 100) : ℤ) : ℚ) / 100 := by
        push_cast; ring
    _ = ((10000 : ℤ) : ℚ) / 100 := by rw [h]
    _ = 100 := by norm_num

theorem round2_intCast (z : ℤ) : round2 ((z : ℤ) : ℚ) = ((z : ℤ) : ℚ) := by
  unfold round2
  rw [show ((z : ℚ) * 100) = ((z * 100 : ℤ) : ℚ) by push_cast; ring, rhe_intCast]
  push_cast; ring

theorem round2_zero : round2 0 = 0 := by simpa using round2_intCast 0

theorem round2_hundred : round2 100 = 100 := by simpa using round2_intCast 100

/-! ## Chunker lemmas -/

theorem chunkGroups_join (size : ℕ) :
    ∀ (l : List Str) (cur : List Str) (n : ℕ),
      (chunkGroups size l cur n).join = cur ++ l := by
  intro l
  induction l with
  | nil =>
    intro cur n
    by_cases h : cur = [] <;> simp [chunkGroups, h]
  | cons c rest ih =>
    intro cur n
    unfold chunkGroups
    split_ifs with h
    · simp [List.join, ih]
    · simp [ih]

theorem chunkGroups_ne_nil (size : ℕ) :
    ∀ (l : List Str) (cur : List Str) (n : ℕ), cur ≠ [] →
      ∀ g ∈ chunkGroups size l cur n, g ≠ [] := by
  intro l
  induction l with
  | nil =>
    intro cur n hcur g hg
    simp [chunkGroups, hcur] at hg
    simpa [hg] using hcur
  | cons c rest ih =>
    intro cur n hcur g hg
    unfold chunkGroups at hg
    split_ifs at hg with h
    · rcases List.mem_cons.mp hg with rfl | hg'
      · exact hcur
      · exact ih [c] _ (by simp) g hg'
    · exact ih (cur ++ [c]) _ (by simp) g hg

theorem chunkGroups_budget (size : ℕ) :
    ∀ (l : List Str) (cur : List Str) (n : ℕ), n = sumTok cur →
      (2 ≤ cur.length → n ≤ size) →
      ∀ g ∈ chunkGroups size l cur n, 2 ≤ g.length → sumTok g ≤ size := by
  intro l
  induction l with
  | nil =>
    intro cur n hn hcur g hg hlen
    by_cases h : cur = []
    · simp [chunkGroups, h] at hg
    · simp [chunkGroups, h] at hg
      subst hg
      exact hn ▸ hcur hlen
  | cons c rest ih =>
    intro cur n hn hcur g hg hlen
    unfold chunkGroups at hg
    split_ifs at hg with h
    · rcases List.mem_cons.mp hg with rfl | hg'
      · exact hn ▸ hcur hlen
      · refine ih [c] _ (by simp [sumTok]) (by simp) g hg' hlen
    · refine ih (cur ++ [c]) _ (by simp [sumTok, hn]) ?_ g hg hlen
      intro h2
      rcases not_and_or.mp h with h' | h'
      · exact Nat.le_of_not_lt h'
      · push_neg at h'
        subst h'
        simp at h2

theorem tokensAux_append_space (b : Str) :
    ∀ (a w : Str), tokensAux (a ++ spaceChar :: b) w = tokensAux a w ++ tokensAux b [] := by
  intro a
  induction a with
  | nil =>
    intro w
    have hws : spaceChar.isWhitespace = true := by decide
    by_cases hw : w = [] <;> simp [tokensAux, hws, hw]
  | cons c a ih =>
    intro w
    by_cases hc : c.isWhitespace <;> by_cases hw : w = [] <;>
      simp [tokensAux, hc, hw, ih]

theorem tokens_joinSep :
    ∀ (g : List (List Char)), g ≠ [] →
      tokens (joinSep [spaceChar] g) = (g.map tokens).join
  | [], h => absurd rfl h
  | [x], _ => by simp [joinSep]
  | x :: y :: t, _ => by
    have ih := tokens_joinSep (y :: t) (by simp)
    unfold joinSep
    simp only [List.map_cons, List.join_cons]
    rw [show x ++ [spaceChar] ++ joinSep [spaceChar] (y :: t)
        = x ++ spaceChar :: joinSep [spaceChar] (y :: t) by simp]
    unfold tokens
    rw [tokensAux_append_space]
    rw [show tokensAux x [] = tokens x from rfl,
        show tokensAux (joinSep [spaceChar] (y :: t)) [] = tokens (joinSep [spaceChar] (y :: t)) from rfl,
        ih]
    rfl

theorem tokens_joinSep_length (g : List Str) (hg : g ≠ []) :
    (tokens (joinSep [spaceChar] g)).length = sumTok g := by
  rw [tokens_joinSep g hg, sumTok]
  simp [List.length_join, Function.comp_def]

theorem splitCh_ne_nil (sep : Char) : ∀ s : Str, splitCh sep s ≠ []
  | [] => by simp [splitCh]
  | c :: rest => by
    have := splitCh_ne_nil sep rest
    unfold splitCh
    split_ifs
    · simp
    · rcases hr : splitCh sep rest with _ | ⟨h, t⟩
      · exact absurd hr this
      · simp

theorem splitCh_append (sep : Char) (b : Str) :
    ∀ a : Str, splitCh sep (a ++ sep :: b) = splitCh sep a ++ splitCh sep b := by
  intro a
  induction a with
  | nil => simp [splitCh]
  | cons c a ih =>
    by_cases hc : c = sep
    · subst hc
      simp [splitCh, ih]
    · rcases ha : splitCh sep a with _ | ⟨h, t⟩
      · exact absurd ha (splitCh_ne_nil sep a)
      · simp [splitCh, hc, ih, ha]

theorem splitCh_joinSep (sep : Char) :
    ∀ (g : List Str), g ≠ [] →
      splitCh sep (joinSep [sep] g) = (g.map (splitCh sep)).join
  | [], h => absurd rfl h
  | [x], _ => by simp [joinSep]
  | x :: y :: t, _ => by
    have ih := splitCh_joinSep sep (y :: t) (by simp)
    unfold joinSep
    simp only [List.map_cons, List.join_cons]
    rw [show x ++ [sep] ++ joinSep [sep] (y :: t)
        = x ++ sep :: joinSep [sep] (y :: t) by simp]
    rw [splitCh_append, ih]
    simp

theorem map_join_join {α : Type} (f : Str → List α) :
    ∀ gs : List (List Str),
      (gs.map fun g => (g.map f).join).join = (gs.join.map f).join := by
  intro gs
  induction gs with
  | nil => simp
  | cons g gs ih => simp [ih]

theorem chunkGroups_cons_nil (size : ℕ) (c : Str) (rest : List Str) (n : ℕ) :
    chunkGroups size (c :: rest) [] n = chunkGroups size rest [c] (n + (tokens c).length) := by
  simp [chunkGroups]

theorem chunkGroups_top_ne_nil (size : ℕ) (comments : List Str) :
    ∀ g ∈ chunkGroups size comments [] 0, g ≠ [] := by
  cases comments with
  | nil => simp [chunkGroups]
  | cons c rest =>
    rw [chunkGroups_cons_nil]
    exact chunkGroups_ne_nil size rest [c] _ (by simp)

theorem chunkGroups_top_budget (size : ℕ) (comments : List Str) :
    ∀ g ∈ chunkGroups size comments [] 0, 2 ≤ g.length → sumTok g ≤ size := by
  cases comments with
  | nil => simp [chunkGroups]
  | cons c rest =>
    rw [chunkGroups_cons_nil]
    exact chunkGroups_budget size rest [c] _ (by simp [sumTok]) (by simp)

/-- C6: chunking loses nothing and duplicates nothing (splitting every chunk
on single spaces and concatenating reproduces the input comments' tokens in
order, and the chunks are the space-joins of a partition of the input into
consecutive non-empty groups); no chunk's whitespace-token count exceeds the
budget except a chunk that is a single over-budget input comment; empty input
yields no chunks. -/
theorem c6_chunker (comments : List Str) (size : ℕ) (_hsize : 0 < size) :
    (((chunkComments comments size).map (splitCh spaceChar)).join
        = (comments.map (splitCh spaceChar)).join)
    ∧ (∃ groups : List (List Str), groups.join = comments
        ∧ chunkComments comments size = groups.map (joinSep [spaceChar])
        ∧ ∀ g ∈ groups, g ≠ [])
    ∧ (∀ ch ∈ chunkComments comments size,
        (tokens ch).length ≤ size ∨ (ch ∈ comments ∧ size < (tokens ch).length))
    ∧ chunkComments [] size = [] := by
  have hne := chunkGroups_top_ne_nil size comments
  have hjoin : (chunkGroups size comments [] 0).join = comments := by
    simpa using chunkGroups_join size comments [] 0
  refine ⟨?_, ⟨chunkGroups size comments [] 0, hjoin, rfl, hne⟩, ?_, by simp [chunkComments, chunkGroups]⟩
  · unfold chunkComments
    rw [List.map_map]
    have hcong : (chunkGroups size comments [] 0).map (splitCh spaceChar ∘ joinSep [spaceChar])
        = (chunkGroups size comments [] 0).map (fun g => (g.map (splitCh spaceChar)).join) :=
      List.map_congr_left (fun g hg => splitCh_joinSep spaceChar g (hne g hg))
    rw [hcong, map_join_join, hjoin]
  · intro ch hch
    unfold chunkComments at hch
    obtain ⟨g, hg, rfl⟩ := List.mem_map.mp hch
    have hgne := hne g hg
    match g, hgne with
    | [x], _ =>
      have hx : joinSep [spaceChar] [x] = x := rfl
      rw [hx]
      have hxmem : x ∈ comments := by
        rw [← hjoin]
        exact List.mem_join.mpr ⟨[x], hg, by simp⟩
      by_cases hle : (tokens x).length ≤ size
      · exact Or.inl hle
      · exact Or.inr ⟨hxmem, Nat.lt_of_not_le hle⟩
    | x :: y :: t, _ =>
      left
      rw [tokens_joinSep_length (x :: y :: t) (by simp)]
      exact chunkGroups_top_budget size comments (x :: y :: t) hg (by simp)

theorem c6_chunker_witness :
    0 < 3
    ∧ (((chunkComments [str "a b", str "c d e f", str "g"] 3).map (splitCh spaceChar)).join
        = ([str "a b", str "c d e f", str "g"].map (splitCh spaceChar)).join)
    ∧ (∀ ch ∈ chunkComments [str "a b", str "c d e f", str "g"] 3,
        (tokens ch).length ≤ 3
          ∨ (ch ∈ [str "a b", str "c d e f", str "g"] ∧ 3 < (tokens ch).length)) :=
  ⟨by decide, (c6_chunker [str "a b", str "c d e f", str "g"] 3 (by decide)).1,
    (c6_chunker [str "a b", str "c d e f", str "g"] 3 (by decide)).2.2.1⟩

/-! ## Theme-analysis lemmas -/

/-- The backward fallback scan never collects a line when `found` starts
false: the loop that would set `found` breaks in the same step. -/
theorem tailScanGo_false (ls : List Str) :
    ∀ acc : List Str, tailScanGo ls false acc = acc := by
  induction ls with
  | nil => intro acc; rfl
  | cons l rest ih =>
    intro acc
    unfold tailScanGo
    split_ifs with h1 h2
    · rfl
    · simp at h2
    · exact ih acc

theorem sectionsExpl_eq_none (sections : List Str)
    (h : ∀ s ∈ sections, keywordIn s = false) :
    sectionsExpl sections = none := by
  induction sections with
  | nil => rfl
  | cons s rest ih =>
    unfold sectionsExpl sectionExpl
    rw [h s (by simp)]
    simp only [Bool.false_eq_true, if_false]
    exact ih fun x hx => h x (by simp [hx])

/-- C2 (amended): when no `###`-delimited section of the reply mentions
"Explanation", "Classification" or "Sentiment Analysis", the extractor
returns the sentinel `"No detailed explanation available"`: no keyword line
exists for the backward fallback scan to find, and that scan never collects
lines anyway because it breaks at a found heading before collecting. -/
theorem c2_fallback_sentinel (content : Str)
    (h : (splitSections content).all (fun s => !keywordIn s) = true) :
    extractExplanation content = str "No detailed explanation available" := by
  unfold extractExplanation
  have h1 : sectionsExpl (splitSections content) = none := by
    refine sectionsExpl_eq_none _ fun s hs => ?_
    have := List.all_eq_true.mp h s hs
    simpa using this
  rw [h1, tailScanGo_false]
  rfl

theorem c2_fallback_sentinel_witness :
    ((splitSections (str "hello world")).all (fun s => !keywordIn s) = true)
    ∧ extractExplanation (str "hello world") = str "No detailed explanation available" :=
  ⟨by decide, c2_fallback_sentinel (str "hello world") (by decide)⟩

/-- C2 (counterexample): a reply in which no section mentions a keyword.  The
claim asserts the extractor backward-scans to a keyword line and returns the
lines above it; here no line at all mentions a keyword (`claimFallback`, the
spec-modelled scan, finds nothing), yet the extractor returns the sentinel,
so the claimed behaviour cannot occur. -/
theorem c2_counterexample :
    ((splitSections (str "first line\nsecond line")).all (fun s => !keywordIn s) = true)
    ∧ claimFallback (str "first line\nsecond line") = none
    ∧ extractExplanation (str "first line\nsecond line")
        = str "No detailed explanation available"
    ∧ ¬ ∃ s, claimFallback (str "first line\nsecond line") = some s
          ∧ extractExplanation (str "first line\nsecond line") = s := by
  refine ⟨by decide, by rfl, by rfl, ?_⟩
  rintro ⟨s, hs, -⟩
  have hn : claimFallback (str "first line\nsecond line") = none := rfl
  rw [hn] at hs
  exact Option.noConfusion hs

/-- C9: a capability failure during theme analysis is caught and converted
into exactly the sentinel report; the stage is a total function, so the
exception never propagates to the caller. -/
theorem c9_theme_error_caught
    (jsonLoads : Str → Option (Option (List Str) × Option Str))
    (llm : Str → Except Str Str) (comments : List Str) (sd : SentimentData)
    (ds : List DetailedSentiment) (e : Str)
    (h : llm (commentsListing comments) = .error e) :
    generateThemeAnalysis jsonLoads llm comments sd ds
      = ⟨[str "Error generating themes"],
         str "Unable to generate theme analysis at this time. Error: " ++ e⟩ := by
  unfold generateThemeAnalysis
  rw [h]

theorem c9_theme_error_caught_witness :
    generateThemeAnalysis (fun _ => none) (fun _ => .error (str "boom")) []
        ⟨0, 0, 0, 0, 0⟩ []
      = ⟨[str "Error generating themes"],
         str "Unable to generate theme analysis at this time. Error: " ++ str "boom"⟩ :=
  c9_theme_error_caught (fun _ => none) (fun _ => .error (str "boom")) []
    ⟨0, 0, 0, 0, 0⟩ [] (str "boom") rfl

/-- C5 (amended): on every run whose reply is not a JSON object (including
capability failures), the theme report's `themes` and `explanation` are
non-empty, with sentinels substituted for empty extractions.  (The empty
input run and a JSON-object reply with explicitly empty fields are the
exceptions recorded by the counterexample.) -/
theorem c5_theme_report_nonempty
    (jsonLoads : Str → Option (Option (List Str) × Option Str))
    (llm : Str → Except Str Str) (comments : List Str) (sd : SentimentData)
    (ds : List DetailedSentiment)
    (h : ∀ raw, llm (commentsListing comments) = .ok raw → jsonLoads raw = none) :
    (generateThemeAnalysis jsonLoads llm comments sd ds).themes ≠ []
    ∧ (generateThemeAnalysis jsonLoads llm comments sd ds).explanation ≠ [] := by
  unfold generateThemeAnalysis
  cases hl : llm (commentsListing comments) with
  | error e =>
    dsimp only
    constructor
    · simp
    · exact List.append_ne_nil_of_left_ne_nil (by decide) e
  | ok raw =>
    dsimp only
    rw [h raw hl]
    constructor
    · dsimp only
      split_ifs with ht
      · decide
      · exact ht
    · dsimp only
      split_ifs with he
      · decide
      · exact he

theorem c5_theme_report_nonempty_witness :
    (generateThemeAnalysis (fun _ => none) (fun _ => .ok (str "hello")) []
        ⟨0, 0, 0, 0, 0⟩ []).themes ≠ []
    ∧ (generateThemeAnalysis (fun _ => none) (fun _ => .ok (str "hello")) []
        ⟨0, 0, 0, 0, 0⟩ []).explanation ≠ [] :=
  c5_theme_report_nonempty (fun _ => none) (fun _ => .ok (str "hello")) []
    ⟨0, 0, 0, 0, 0⟩ [] (fun _ _ => rfl)

/-- C5 (counterexample): the pipeline run on the empty comment sequence
returns a theme report whose `themes` sequence is the empty list, not a
non-empty sentinel. -/
theorem c5_counterexample :
    analyzeSentiment stubCaps [] = .ok emptyAnalysis
    ∧ emptyAnalysis.themeAnalysis.themes = [] :=
  ⟨rfl, rfl⟩

/-- C4 (amended): the spam filter excludes `"aaaaa"`, `"hi"` and `"wow!!!"`
and retains `"This is a fine comment."` as claimed, but it retains
`"THIS IS ALL CAPS"`: the `[A-Z]{10,}` heuristic requires ten consecutive
uppercase letters and that string's longest uppercase run has length four. -/
theorem c4_spam_filter_examples :
    isSpam (str "aaaaa") = true
    ∧ isSpam (str "hi") = true
    ∧ isSpam (str "THIS IS ALL CAPS") = false
    ∧ isSpam (str "wow!!!") = true
    ∧ isSpam (str "This is a fine comment.") = false
    ∧ preprocessComments stubCaps.tfidf [str "aaaaa"] = .ok []
    ∧ preprocessComments stubCaps.tfidf [str "hi"] = .ok []
    ∧ preprocessComments stubCaps.tfidf [str "wow!!!"] = .ok []
    ∧ preprocessComments stubCaps.tfidf [str "This is a fine comment."]
        = .ok [str "This is a fine comment."] :=
  ⟨by decide, by decide, by decide, by decide, by decide, rfl, rfl, rfl, rfl⟩

/-- C4 (counterexample): the claim says `"THIS IS ALL CAPS"` is excluded, but
the spam predicate does not match it and preprocessing retains it. -/
theorem c4_counterexample :
    isSpam (str "THIS IS ALL CAPS") = false
    ∧ preprocessComments stubCaps.tfidf [str "THIS IS ALL CAPS"]
        = .ok [str "THIS IS ALL CAPS"] :=
  ⟨by decide, rfl⟩

/-- C1: when the TF-IDF vectorization fails (two distinct stopword-only
comments survive the spam filter, giving sklearn's empty-vocabulary
`ValueError`), `preprocess_comments` has no handler, so the error propagates,
and `analyze_sentiment` propagates it further instead of returning a result —
contradicting the claim that the stage degrades to returning its input. -/
theorem c1_vectorization_error_propagates :
    preprocessComments emptyVocabCaps.tfidf [str "the and of", str "of the and"]
      = .error (str "empty vocabulary")
    ∧ analyzeSentiment emptyVocabCaps [str "the and of", str "of the and"]
      = .error (str "empty vocabulary") :=
  ⟨rfl, rfl⟩

/-! ## Sentiment-group lemmas -/

theorem posGroup_singleton (i : DetailedSentiment) :
    (groupCommentsBySentiment [i]).positive
      = if 5/100 < i.vaderScore ∧ i.distilbertLabel = str "POSITIVE"
        then [i.text] else [] := by
  simp [groupCommentsBySentiment, List.filter_cons]
  split_ifs <;> simp

theorem negGroup_singleton (i : DetailedSentiment) :
    (groupCommentsBySentiment [i]).negative
      = if i.vaderScore < -(5/100) ∧ i.distilbertLabel = str "NEGATIVE"
        then [i.text] else [] := by
  simp [groupCommentsBySentiment, List.filter_cons]
  split_ifs <;> simp

theorem neuGroup_singleton (i : DetailedSentiment) :
    (groupCommentsBySentiment [i]).neutral
      = if -(5/100) ≤ i.vaderScore ∧ i.vaderScore ≤ 5/100
        then [i.text] else [] := by
  simp [groupCommentsBySentiment, List.filter_cons]
  split_ifs <;> simp

theorem vaderClass_pos_iff (v : ℚ) : vaderClass v = SClass.pos ↔ 5/100 ≤ v := by
  unfold vaderClass
  split_ifs <;> simp [*] <;> linarith

theorem vaderClass_neg_iff (v : ℚ) : vaderClass v = SClass.neg ↔ v ≤ -(5/100) := by
  unfold vaderClass
  split_ifs <;> simp [*] <;> linarith

/-- C7 (amended): the theme parser's groups use strict thresholds
(`> 0.05`, `< -0.05`) with label agreement, and the inclusive band
`-0.05 ≤ v ≤ 0.05` for neutral, while the scorer classifies with inclusive
thresholds (`≥ 0.05`, `≤ -0.05`); strictly away from the boundary the two
components agree, but an entry with polarity exactly `0.05` is counted
positive by the scorer and filed under neutral (not positive) by the
grouper. -/
theorem c7_thresholds (i : DetailedSentiment) :
    ((groupCommentsBySentiment [i]).positive ≠ []
        ↔ 5/100 < i.vaderScore ∧ i.distilbertLabel = str "POSITIVE")
    ∧ ((groupCommentsBySentiment [i]).negative ≠ []
        ↔ i.vaderScore < -(5/100) ∧ i.distilbertLabel = str "NEGATIVE")
    ∧ ((groupCommentsBySentiment [i]).neutral ≠ []
        ↔ -(5/100) ≤ i.vaderScore ∧ i.vaderScore ≤ 5/100)
    ∧ (vaderClass i.vaderScore = SClass.pos ↔ 5/100 ≤ i.vaderScore)
    ∧ (vaderClass i.vaderScore = SClass.neg ↔ i.vaderScore ≤ -(5/100))
    ∧ (5/100 < i.vaderScore → i.distilbertLabel = str "POSITIVE" →
        vaderClass i.vaderScore = SClass.pos
          ∧ (groupCommentsBySentiment [i]).positive = [i.text])
    ∧ (i.vaderScore < -(5/100) → i.distilbertLabel = str "NEGATIVE" →
        vaderClass i.vaderScore = SClass.neg
          ∧ (groupCommentsBySentiment [i]).negative = [i.text])
    ∧ (vaderClass (5/100) = SClass.pos
        ∧ (groupCommentsBySentiment
            [⟨i.text, 5/100, str "POSITIVE", i.distilbertScore⟩]).neutral = [i.text]
        ∧ (groupCommentsBySentiment
            [⟨i.text, 5/100, str "POSITIVE", i.distilbertScore⟩]).positive = []) := by
  refine ⟨?_, ?_, ?_, vaderClass_pos_iff _, vaderClass_neg_iff _, ?_, ?_, ?_, ?_, ?_⟩
  · rw [posGroup_singleton]
    split_ifs with h <;> simp [h]
  · rw [negGroup_singleton]
    split_ifs with h <;> simp [h]
  · rw [neuGroup_singleton]
    split_ifs with h <;> simp [h]
  · intro hv hl
    exact ⟨(vaderClass_pos_iff _).mpr (le_of_lt hv),
      by rw [posGroup_singleton]; simp [hv, hl]⟩
  · intro hv hl
    exact ⟨(vaderClass_neg_iff _).mpr (le_of_lt hv),
      by rw [negGroup_singleton]; simp [hv, hl]⟩
  · exact (vaderClass_pos_iff _).mpr (by norm_num)
  · rw [neuGroup_singleton]
    norm_num
  · rw [posGroup_singleton]
    norm_num

theorem c7_thresholds_witness :
    (vaderClass ((1:ℚ)/5) = SClass.pos
      ∧ (groupCommentsBySentiment
          [⟨str "y", 1/5, str "POSITIVE", 1⟩]).positive = [str "y"])
    ∧ vaderClass (5/100) = SClass.pos := by
  refine ⟨(c7_thresholds ⟨str "y", 1/5, str "POSITIVE", 1⟩).2.2.2.2.2.1 (by norm_num) rfl,
    ((c7_thresholds ⟨str "y", 1/5, str "POSITIVE", 1⟩).2.2.2.2.2.2.2).1⟩

/-- C7 (counterexample): an entry with polarity exactly `0.05` is classified
positive by the scorer, but the grouper's strict `> 0.05` test keeps it out
of the positive group and its inclusive band files it under neutral — the
two components do not use the same thresholds at the boundary. -/
theorem c7_counterexample :
    vaderClass (5/100) = SClass.pos
    ∧ (groupCommentsBySentiment
        [⟨str "x", 5/100, str "POSITIVE", 9/10⟩]).positive = []
    ∧ (groupCommentsBySentiment
        [⟨str "x", 5/100, str "POSITIVE", 9/10⟩]).neutral = [str "x"] := by
  refine ⟨(vaderClass_pos_iff _).mpr (by norm_num), ?_, ?_⟩
  · rw [posGroup_singleton]
    norm_num
  · rw [neuGroup_singleton]
    norm_num

/-- C10: for every entry, the grouper's three membership conditions are
pairwise exclusive, and an entry whose polarity exceeds `0.05` with a
`NEGATIVE` label (or is below `-0.05` with a `POSITIVE` label) lands in none
of the three groups. -/
theorem c10_groups_disjoint_not_exhaustive (i : DetailedSentiment) :
    (¬((groupCommentsBySentiment [i]).positive ≠ []
        ∧ (groupCommentsBySentiment [i]).negative ≠ []))
    ∧ (¬((groupCommentsBySentiment [i]).positive ≠ []
        ∧ (groupCommentsBySentiment [i]).neutral ≠ []))
    ∧ (¬((groupCommentsBySentiment [i]).negative ≠ []
        ∧ (groupCommentsBySentiment [i]).neutral ≠ []))
    ∧ (5/100 < i.vaderScore → i.distilbertLabel = str "NEGATIVE" →
        (groupCommentsBySentiment [i]).positive = []
        ∧ (groupCommentsBySentiment [i]).negative = []
        ∧ (groupCommentsBySentiment [i]).neutral = [])
    ∧ (i.vaderScore < -(5/100) → i.distilbertLabel = str "POSITIVE" →
        (groupCommentsBySentiment [i]).positive = []
        ∧ (groupCommentsBySentiment [i]).negative = []
        ∧ (groupCommentsBySentiment [i]).neutral = []) := by
  have hlbl : str "POSITIVE" ≠ str "NEGATIVE" := by decide
  rw [posGroup_singleton, negGroup_singleton, neuGroup_singleton]
  refine ⟨?_, ?_, ?_, ?_, ?_⟩
  · rintro ⟨hp, hn⟩
    split_ifs at hp hn with h1 h2
    · exact absurd (h1.2 ▸ h2.2.symm) hlbl.symm
    · exact hn rfl
    · exact hp rfl
    · exact hp rfl
  · rintro ⟨hp, hn⟩
    split_ifs at hp hn with h1 h2
    · linarith [h1.1, h2.2]
    · exact hn rfl
    · exact hp rfl
    · exact hp rfl
  · rintro ⟨hp, hn⟩
    split_ifs at hp hn with h1 h2
    · linarith [h1.1, h2.1]
    · exact hn rfl
    · exact hp rfl
    · exact hp rfl
  · intro hv hl
    refine ⟨?_, ?_, ?_⟩
    · split_ifs with h
      · exact absurd (h.2.symm.trans hl) hlbl
      · rfl
    · split_ifs with h
      · exact absurd h.1 (by linarith)
      · rfl
    · split_ifs with h
      · exact absurd h.2 (by linarith)
      · rfl
  · intro hv hl
    refine ⟨?_, ?_, ?_⟩
    · split_ifs with h
      · exact absurd h.1 (by linarith)
      · rfl
    · split_ifs with h
      · exact absurd (h.2.symm.trans hl).symm hlbl
      · rfl
    · split_ifs with h
      · exact absurd h.1 (by linarith)
      · rfl

theorem c10_witness :
    ((groupCommentsBySentiment [⟨str "z", 1/5, str "NEGATIVE", 1⟩]).positive = []
      ∧ (groupCommentsBySentiment [⟨str "z", 1/5, str "NEGATIVE", 1⟩]).negative = []
      ∧ (groupCommentsBySentiment [⟨str "z", 1/5, str "NEGATIVE", 1⟩]).neutral = []) :=
  (c10_groups_disjoint_not_exhaustive ⟨str "z", 1/5, str "NEGATIVE", 1⟩).2.2.2.1
    (by norm_num) rfl

/-! ## Sentiment aggregation claims -/

/-- C3 (amended): when zero comments reach the sentiment tally (non-empty
input, everything filtered out), the divisor `total` defaults to 1 and the
positive and neutral percentages are 0, but the negative percentage is
`100 - final_positive = 100`, not 0. -/
theorem c3_zero_tally_percentages (caps : Caps) (comments : List Str)
    (hne : comments ≠ [])
    (hpre : preprocessComments caps.tfidf comments = .ok []) :
    totalOf (sentimentTally caps.vader caps.distilbert []) = 1
    ∧ ∃ r, analyzeSentiment caps comments = .ok r
        ∧ r.positive = 0 ∧ r.neutral = 0 ∧ r.negative = 100 := by
  refine ⟨rfl, ⟨analyzeFrom caps [], ?_, ?_, ?_, ?_⟩⟩
  · unfold analyzeSentiment
    rw [if_neg hne, hpre]
    rfl
  · norm_num [analyzeFrom, sentimentTally, finalPositive, totalOf, round2_zero]
  · norm_num [analyzeFrom, sentimentTally, finalPositive, totalOf, round2_zero]
  · norm_num [analyzeFrom, sentimentTally, finalPositive, totalOf, round2_hundred]

theorem c3_zero_tally_percentages_witness :
    ([str "hi"] ≠ ([] : List Str))
    ∧ ∃ r, analyzeSentiment stubCaps [str "hi"] = .ok r
        ∧ r.positive = 0 ∧ r.neutral = 0 ∧ r.negative = 100 :=
  ⟨by decide, (c3_zero_tally_percentages stubCaps [str "hi"] (by decide) rfl).2⟩

/-- C3 (counterexample): on input `["hi"]` every comment is spam-filtered, so
zero comments reach the tally; the claim says all percentages are then 0, but
the reported negative percentage is 100. -/
theorem c3_counterexample :
    analyzeSentiment stubCaps [str "hi"] = .ok (analyzeFrom stubCaps [])
    ∧ (analyzeFrom stubCaps []).negative = 100
    ∧ (analyzeFrom stubCaps []).negative ≠ 0 := by
  have h : (analyzeFrom stubCaps []).negative = 100 := by
    norm_num [analyzeFrom, sentimentTally, finalPositive, totalOf, round2_hundred]
  exact ⟨rfl, h, by rw [h]; norm_num⟩

/-- C8 (amended): for every run on a non-empty input, the reported
percentages are the claimed blend formulas (rounded at the output boundary):
`final_positive = (pos/total)*100*0.3 + (pos_label/total)*100*0.7`,
`final_negative = 100 - final_positive`, `final_neutral = neu/total*100`,
with `total` the polarity-count sum floored at 1; positive and negative
always sum to exactly 100, while positive + neutral + negative need not be
100 (witnessed by a run with one positive, one negative and one neutral
comment, which reports 80 + 33.33 + 20).  On the empty-input run all three
percentages are 0 instead (see the counterexample). -/
theorem c8_blend_formulas :
    (∀ (caps : Caps) (comments : List Str) (r : AnalysisResult),
        analyzeSentiment caps comments = .ok r → comments ≠ [] →
        ∃ processed, preprocessComments caps.tfidf comments = .ok processed
          ∧ r.positive
              = round2 (finalPositive (sentimentTally caps.vader caps.distilbert processed))
          ∧ r.negative
              = round2 (100 - finalPositive (sentimentTally caps.vader caps.distilbert processed))
          ∧ r.neutral
              = round2 (((sentimentTally caps.vader caps.distilbert processed).neu : ℚ)
                  / (totalOf (sentimentTally caps.vader caps.distilbert processed) : ℚ) * 100)
          ∧ r.positive + r.negative = 100)
    ∧ (analyzeFrom blendCaps [str "good", str "badly", str "okay"]).positive
        + (analyzeFrom blendCaps [str "good", str "badly", str "okay"]).neutral
        + (analyzeFrom blendCaps [str "good", str "badly", str "okay"]).negative ≠ 100 := by
  constructor
  · intro caps comments r hr hne
    unfold analyzeSentiment at hr
    rw [if_neg hne] at hr
    cases hp : preprocessComments caps.tfidf comments with
    | error e =>
      rw [hp] at hr
      exact absurd hr (by simp [Except.map])
    | ok processed =>
      rw [hp] at hr
      simp only [Except.map, Except.ok.injEq] at hr
      subst hr
      refine ⟨processed, rfl, rfl, rfl, rfl, ?_⟩
      show round2 (finalPositive (sentimentTally caps.vader caps.distilbert processed))
          + round2 (100 - finalPositive (sentimentTally caps.vader caps.distilbert processed))
          = 100
      exact round2_compl _
  · have hpos : (analyzeFrom blendCaps [str "good", str "badly", str "okay"]).positive = 80 := by
      norm_num [analyzeFrom, sentimentTally, vaderClass, blendCaps, stubCaps,
        finalPositive, totalOf, round2, rhe,
        (show strip (str "good") ≠ [] by decide),
        (show strip (str "badly") ≠ [] by decide),
        (show strip (str "okay") ≠ [] by decide),
        (show str "badly" ≠ str "good" by decide),
        (show str "okay" ≠ str "good" by decide),
        (show str "okay" ≠ str "badly" by decide)]
    have hneu : (analyzeFrom blendCaps [str "good", str "badly", str "okay"]).neutral
        = 3333/100 := by
      norm_num [analyzeFrom, sentimentTally, vaderClass, blendCaps, stubCaps,
        finalPositive, totalOf, round2, rhe,
        (show strip (str "good") ≠ [] by decide),
        (show strip (str "badly") ≠ [] by decide),
        (show strip (str "okay") ≠ [] by decide),
        (show str "badly" ≠ str "good" by decide),
        (show str "okay" ≠ str "good" by decide),
        (show str "okay" ≠ str "badly" by decide)]
    have hneg : (analyzeFrom blendCaps [str "good", str "badly", str "okay"]).negative = 20 := by
      norm_num [analyzeFrom, sentimentTally, vaderClass, blendCaps, stubCaps,
        finalPositive, totalOf, round2, rhe,
        (show strip (str "good") ≠ [] by decide),
        (show strip (str "badly") ≠ [] by decide),
        (show strip (str "okay") ≠ [] by decide),
        (show str "badly" ≠ str "good" by decide),
        (show str "okay" ≠ str "good" by decide),
        (show str "okay" ≠ str "badly" by decide)]
    rw [hpos, hneu, hneg]
    norm_num

theorem c8_blend_formulas_witness :
    ∃ r, analyzeSentiment stubCaps [str "good day here"] = .ok r
      ∧ r.positive + r.negative = 100 := by
  obtain ⟨p, hp, h1, h2, h3, h4⟩ :=
    c8_blend_formulas.1 stubCaps [str "good day here"]
      (analyzeFrom stubCaps [str "good day here"]) rfl (by decide)
  exact ⟨analyzeFrom stubCaps [str "good day here"], rfl, h4⟩

/-- C8 (counterexample): the claim quantifies over every run, but the run on
the empty comment sequence reports positive = neutral = negative = 0, so
there `final_negative ≠ 100 - final_positive` and positive + negative ≠ 100. -/
theorem c8_counterexample :
    analyzeSentiment stubCaps [] = .ok emptyAnalysis
    ∧ ¬(emptyAnalysis.negative = 100 - emptyAnalysis.positive)
    ∧ emptyAnalysis.positive + emptyAnalysis.negative ≠ 100 := by
  refine ⟨rfl, ?_, ?_⟩ <;> norm_num [emptyAnalysis]
